import Mathlib

/-!
Verification development for the DHCP server (dhcp_server.py, dhcp_db.py).

Modelling conventions:
* bytes are natural numbers (each < 256 in a real datagram); buffers are
  `List Nat`;
* Python slicing `data[a:b]` never raises and is `(data.drop a).take (b - a)`;
  indexing `data[i]` raises `IndexError` out of range, modelled by `Option`;
* IPv4 addresses are their 32-bit numeric value (the dotted-quad string form
  used by the Python code is in bijection with it, so string comparisons
  become `Nat` equality);
* timestamps are `Nat` epoch seconds (the code uses fractional POSIX floats,
  but only compares and adds them); each server operation samples
  `datetime.now()` a handful of times microseconds apart, modelled as a
  single instant `now` per operation;
* MAC addresses are kept as their raw byte list: the code keys the store by
  the colon-joined lowercase hex string, which is injective in the bytes.
-/

set_option maxRecDepth 8000

/-- Python indexing `l[i]`: `some` the element, `none` models `IndexError`. -/
def pyIndex (l : List Nat) (i : Nat) : Option Nat := l.get? i

/-- Python slice `l[a:b]` (total, never raises). -/
def pySlice (l : List Nat) (a b : Nat) : List Nat := (l.drop a).take (b - a)

/-- Python `bytearray` slice assignment `l[a:b] = v` (resizes when
`v.length` differs from `b - a`, exactly as in Python). -/
def setSlice (l : List Nat) (a b : Nat) (v : List Nat) : List Nat :=
  l.take a ++ v ++ l.drop b

/-- Big-endian 4-byte encoding: `struct.pack('!I', n)` and `socket.inet_aton`
for an address given numerically (faithful for `n < 2^32`, the only values the
code ever packs). -/
def u32be (n : Nat) : List Nat :=
  [n / 2 ^ 24 % 256, n / 2 ^ 16 % 256, n / 2 ^ 8 % 256, n % 256]

/-- Body of the `if`/`elif` chain at dhcp_server.py lines 148-153, run once
per loop iteration on the tag `options[i]`: tag 53 overwrites `message_type`
with `options[i + 2]`, tag 12 overwrites `hostname` with the slice
`options[i + 2 : i + 2 + options[i + 1]]`, every other tag changes nothing.
A `none` result models an `IndexError` raised by one of the reads. -/
def optStep (options : List Nat) (i tag message_type : Nat)
    (hostname : Option (List Nat)) : Option (Nat × Option (List Nat)) :=
  if tag = 53 then
    match pyIndex options (i + 2) with
    | none => none
    | some v => some (v, hostname)
  else if tag = 12 then
    match pyIndex options (i + 1) with
    | none => none
    | some len => some (message_type, some (pySlice options (i + 2) (i + 2 + len)))
  else some (message_type, hostname)

/-- Option-scanning loop of `DHCPServer.parse_dhcp_packet` (dhcp_server.py
lines 146-156), one recursive call per `while` iteration, made structural by
a fuel argument (theorem `optLoopF_stable` shows any fuel exceeding
`options.length - i` gives the same result, so the fuel chosen in `optLoop`
is irrelevant and the function implements the unbounded `while`).  State:
index `i`, the current `message_type` and `hostname`.  A `none` result models
an `IndexError` escaping the loop (caught by the surrounding `try`).  Note
the code has no case for tag 0: every tag other than 53, 12 and 255 falls
through to `i += options[i + 1] + 2`. -/
def optLoopF : Nat → List Nat → Nat → Nat → Option (List Nat) →
    Option (Nat × Option (List Nat))
  | 0, _, _, message_type, hostname => some (message_type, hostname)
  | fuel + 1, options, i, message_type, hostname =>
    match pyIndex options i with
    | none => some (message_type, hostname)
    | some tag =>
      match optStep options i tag message_type hostname with
      | none => none
      | some (mt, hn) =>
        if tag = 255 then some (mt, hn)
        else
          match pyIndex options (i + 1) with
          | none => none
          | some len => optLoopF fuel options (i + len + 2) mt hn

/-- The option loop, with enough fuel for the guard `i < options.length` to
fail before the fuel runs out (the index grows by at least 2 per iteration). -/
def optLoop (options : List Nat) (i : Nat) (message_type : Nat)
    (hostname : Option (List Nat)) : Option (Nat × Option (List Nat)) :=
  optLoopF (options.length + 1) options i message_type hostname

/-- Function `DHCPServer.parse_dhcp_packet` (dhcp_server.py lines 131-161).
Returns `(message_type, client_mac, transaction_id, hostname)`; the `except`
clause turns any loop failure into `(0, b'', b'', None)`.  The hostname is
kept as raw option bytes (the code decodes UTF-8 with errors ignored,
display-only). -/
def parse_dhcp_packet (data : List Nat) :
    Nat × List Nat × List Nat × Option (List Nat) :=
  let client_mac := pySlice data 28 34
  let transaction_id := pySlice data 4 8
  let options := data.drop 240
  match optLoop options 0 0 none with
  | some (mt, hn) => (mt, client_mac, transaction_id, hn)
  | none => (0, [], [], none)

/-- Static configuration of `DHCPServer.__init__` (dhcp_server.py lines
51-79), kept abstract so theorems cover any choice of the constants the code
hardcodes (`server_ip = 192.168.1.1`, pool `192.168.1.0/24`, three excluded
addresses, `lease_time = 3600`, and the four 4-byte option values). -/
structure Config where
  server_ip : Nat
  poolBase : Nat
  poolSize : Nat
  excluded : List Nat
  lease_time : Nat
  subnet_mask : Nat
  router : Nat
  dns : Nat
  ntp : Nat
deriving DecidableEq

/-- Dictionary `self.dhcp_options` (dhcp_server.py lines 73-79), iterated in
insertion order 1, 3, 6, 42, 51; option 51 is `struct.pack('!I', lease_time)`. -/
def Config.dhcp_options (cfg : Config) : List (Nat × List Nat) :=
  [(1, u32be cfg.subnet_mask), (3, u32be cfg.router), (6, u32be cfg.dns),
   (42, u32be cfg.ntp), (51, u32be cfg.lease_time)]

/-- Serialization of a tag/value list as the code appends it:
`options.extend([code, len(value)]); options.extend(value)`. -/
def optionsBytes : List (Nat × List Nat) → List Nat
  | [] => []
  | (code, val) :: rest => (code :: val.length :: val) ++ optionsBytes rest

/-- Function `DHCPServer.create_dhcp_packet` (dhcp_server.py lines 163-218):
a zeroed 240-byte header written field by field, then the options region. -/
def create_dhcp_packet (cfg : Config) (message_type : Nat)
    (client_mac : List Nat) (transaction_id : List Nat) (your_ip : Nat) :
    List Nat :=
  let packet := List.replicate 240 0
  let packet := (((packet.set 0 2).set 1 1).set 2 6).set 3 0
  let packet := setSlice packet 4 8 transaction_id
  let packet := setSlice packet 16 20 (u32be your_ip)
  let packet := setSlice packet 20 24 (u32be cfg.server_ip)
  let packet := setSlice packet 28 34 client_mac
  let packet := setSlice packet 236 240 (u32be 0x63825363)
  let options := ([53, 1, message_type] ++ [54, 4] ++ u32be cfg.server_ip)
      ++ optionsBytes cfg.dhcp_options ++ [255]
  packet ++ options

/-- MAC address as stored: raw bytes standing for the colon-joined hex
string key (injective in the bytes). -/
abbrev Mac := List Nat

/-- Row of the `leases` table (dhcp_db.py lines 19-28), minus the key. -/
structure Lease where
  ip_address : Nat
  hostname : Option (List Nat)
  lease_start : Nat
  lease_end : Nat
  last_seen : Nat
deriving DecidableEq

/-- State of `DHCPDatabase`: the `leases` table keyed by `mac_address`
(PRIMARY KEY) and the `static_reservations` table as (mac, ip) pairs — its
`hostname` and `description` columns are never read by the server. -/
structure DB where
  leases : List (Mac × Lease)
  statics : List (Mac × Nat)
deriving DecidableEq

/-- Query `DHCPDatabase.get_static_reservation` (dhcp_db.py lines 90-108). -/
def DB.get_static_reservation (db : DB) (mac : Mac) : Option Nat :=
  (db.statics.find? (fun p => p.1 == mac)).map (fun p => p.2)

/-- Query `DHCPDatabase.get_lease` (dhcp_db.py lines 56-76):
`WHERE mac_address = ? AND lease_end > now`. -/
def DB.get_lease (db : DB) (mac : Mac) (now : Nat) : Option Lease :=
  match db.leases.find? (fun p => p.1 == mac) with
  | some p => if now < p.2.lease_end then some p.2 else none
  | none => none

/-- Update `DHCPDatabase.add_lease` (dhcp_db.py lines 42-54):
`INSERT OR REPLACE` with `lease_start = last_seen = now` and
`lease_end = now + lease_time`. -/
def DB.add_lease (db : DB) (mac : Mac) (ip : Nat) (lease_time : Nat)
    (hostname : Option (List Nat)) (now : Nat) : DB :=
  { db with leases := (mac,
      { ip_address := ip, hostname := hostname, lease_start := now,
        lease_end := now + lease_time, last_seen := now })
      :: db.leases.filter (fun p => !(p.1 == mac)) }

/-- Query `DHCPDatabase.get_all_leases` (dhcp_db.py lines 110-127):
all rows with `lease_end > now`. -/
def DB.get_all_leases (db : DB) (now : Nat) : List (Mac × Lease) :=
  db.leases.filter (fun p => decide (now < p.2.lease_end))

/-- Update `DHCPDatabase.cleanup_expired_leases` (dhcp_db.py lines 129-137):
`DELETE ... WHERE lease_end <= now`. -/
def DB.cleanup_expired_leases (db : DB) (now : Nat) : DB :=
  { db with leases := db.leases.filter (fun p => decide (now < p.2.lease_end)) }

/-- Ascending host iteration `ipaddress.ip_network(self.network).hosts()`:
for the configured `192.168.1.0/24` (or any prefix length at most 30) the
hosts are `network + 1 .. network + poolSize` in increasing numeric order. -/
def hostsRange (cfg : Config) : List Nat :=
  (List.range cfg.poolSize).map (fun k => cfg.poolBase + 1 + k)

/-- Function `DHCPServer._get_available_ip` (dhcp_server.py lines 81-110).
Returns the chosen ip (`none` = pool exhausted) together with the database as
mutated by the embedded `cleanup_expired_leases` call. -/
def getAvailableIp (cfg : Config) (db : DB) (mac : Mac) (now : Nat) :
    Option Nat × DB :=
  match db.get_static_reservation mac with
  | some ip => (some ip, db)
  | none =>
    match db.get_lease mac now with
    | some l => (some l.ip_address, db)
    | none =>
      let db2 := db.cleanup_expired_leases now
      let active_leases := (db2.get_all_leases now).map (fun p => p.2.ip_address)
      ((hostsRange cfg).find? (fun ip =>
        !(cfg.excluded.contains ip) && !(active_leases.contains ip)), db2)

def DHCPDISCOVER : Nat := 1
def DHCPOFFER : Nat := 2
def DHCPREQUEST : Nat := 3
def DHCPACK : Nat := 5
def DHCPRELEASE : Nat := 7

/-- Handler `DHCPServer.handle_discover` (dhcp_server.py lines 224-243):
allocate an ip, build and send an OFFER; the lease table is touched only
through `_get_available_ip`.  Result: (database, datagram sent if any). -/
def handle_discover (cfg : Config) (db : DB) (client_mac : Mac)
    (transaction_id : List Nat) (hostname : Option (List Nat)) (now : Nat) :
    DB × Option (List Nat) :=
  match getAvailableIp cfg db client_mac now with
  | (none, db2) => (db2, none)
  | (some ip, db2) =>
      (db2, some (create_dhcp_packet cfg DHCPOFFER client_mac transaction_id ip))

/-- Handler `DHCPServer.handle_request` (dhcp_server.py lines 245-267):
allocate an ip, commit it with `add_lease`, build and send an ACK. -/
def handle_request (cfg : Config) (db : DB) (client_mac : Mac)
    (transaction_id : List Nat) (hostname : Option (List Nat)) (now : Nat) :
    DB × Option (List Nat) :=
  match getAvailableIp cfg db client_mac now with
  | (none, db2) => (db2, none)
  | (some ip, db2) =>
      (db2.add_lease client_mac ip cfg.lease_time hostname now,
       some (create_dhcp_packet cfg DHCPACK client_mac transaction_id ip))

/-- Dispatcher `DHCPServer.handle_client` (dhcp_server.py lines 269-286):
parse, then dispatch on the message type; RELEASE (7) and every unrecognized
type (including the failure sentinel 0) only log. -/
def handle_client (cfg : Config) (db : DB) (data : List Nat) (now : Nat) :
    DB × Option (List Nat) :=
  let r := parse_dhcp_packet data
  if r.1 = DHCPDISCOVER then
    handle_discover cfg db r.2.1 r.2.2.1 r.2.2.2 now
  else if r.1 = DHCPREQUEST then
    handle_request cfg db r.2.1 r.2.2.1 r.2.2.2 now
  else (db, none)

/-- One server-side operation on the lease store, at the instant `now` it is
processed: a DISCOVER or REQUEST handled for some client, or a run of the
expiry sweep. -/
inductive Event where
  | discover (mac : Mac) (now : Nat)
  | request (mac : Mac) (hostname : Option (List Nat)) (now : Nat)
  | sweep (now : Nat)

/-- Database effect of one event (the transaction id does not influence the
store, so it is passed as `[]`). -/
def applyEvent (cfg : Config) (db : DB) : Event → DB
  | .discover mac now => (handle_discover cfg db mac [] none now).1
  | .request mac hostname now => (handle_request cfg db mac [] hostname now).1
  | .sweep now => db.cleanup_expired_leases now

/-- Database reached after a sequence of server operations. -/
def runEvents (cfg : Config) (db : DB) (evs : List Event) : DB :=
  evs.foldl (applyEvent cfg) db

/-! ## Concrete instances used by witnesses and counterexamples -/

/-- Hardcoded configuration of `DHCPServer.__init__`: server 192.168.1.1,
pool 192.168.1.0/24, excluded {192.168.1.0, 192.168.1.1, 192.168.1.255},
lease 3600 s, subnet mask 255.255.255.0, router 192.168.1.1, DNS and NTP
8.8.8.8 (all addresses numeric). -/
def cfg0 : Config where
  server_ip := 3232235777
  poolBase := 3232235776
  poolSize := 254
  excluded := [3232235776, 3232235777, 3232236031]
  lease_time := 3600
  subnet_mask := 4294967040
  router := 3232235777
  dns := 134744072
  ntp := 134744072

/-- Sample client aa:bb:cc:dd:ee:ff (the MAC of static_renewal_test.py). -/
def macA : Mac := [0xaa, 0xbb, 0xcc, 0xdd, 0xee, 0xff]

/-- A second, distinct sample client aa:bb:cc:dd:ee:01. -/
def macB : Mac := [0xaa, 0xbb, 0xcc, 0xdd, 0xee, 0x01]


/-- Database used by the C3 witness: macB holds an active lease for
192.168.1.2 and a third client an expired one for 192.168.1.3. -/
def dbW : DB :=
  ⟨[(macB, ⟨3232235778, none, 0, 3600, 0⟩),
    ([0x02, 0, 0, 0, 0, 0x03], ⟨3232235779, none, 0, 5, 0⟩)], []⟩

/-- Database used by the C8 counterexample: macA holds an expired lease
(lease_end 5) for 192.168.1.3. -/
def dbC8 : DB := ⟨[(macA, ⟨3232235779, none, 0, 5, 0⟩)], []⟩

/-- Value of the `lease_end` column stored for a mac (`None` if no row),
regardless of expiry. -/
def DB.leaseEndOf (db : DB) (mac : Mac) : Option Nat :=
  (db.leases.find? (fun p => p.1 == mac)).map (fun p => p.2.lease_end)

/-! ## Basic lemmas about the option loop -/

theorem optLoopF_stable (fuel : Nat) : ∀ (fuel2 : Nat) (options : List Nat)
    (i mt : Nat) (hn : Option (List Nat)),
    options.length < i + fuel → options.length < i + fuel2 →
    optLoopF fuel options i mt hn = optLoopF fuel2 options i mt hn := by
  induction fuel with
  | zero =>
    intro fuel2 options i mt hn h h2
    have hnone : pyIndex options i = none := by
      simp only [pyIndex]
      exact List.get?_eq_none.mpr (by omega)
    cases fuel2 with
    | zero => rfl
    | succ f2 => simp [optLoopF, hnone]
  | succ f ih =>
    intro fuel2 options i mt hn h h2
    cases fuel2 with
    | zero =>
      have hnone : pyIndex options i = none := by
        simp only [pyIndex]
        exact List.get?_eq_none.mpr (by omega)
      simp [optLoopF, hnone]
    | succ f2 =>
      cases hidx : pyIndex options i with
      | none => simp [optLoopF, hidx]
      | some tag =>
        cases hstep : optStep options i tag mt hn with
        | none => simp [optLoopF, hidx, hstep]
        | some p =>
          obtain ⟨mt2, hn2⟩ := p
          by_cases htag : tag = 255
          · simp [optLoopF, hidx, hstep, htag]
          · cases hidx2 : pyIndex options (i + 1) with
            | none => simp [optLoopF, hidx, hstep, htag, hidx2]
            | some len =>
              simp only [optLoopF, hidx, hstep, htag, hidx2, if_false]
              exact ih f2 options (i + len + 2) mt2 hn2 (by omega) (by omega)

theorem optLoop_step (options : List Nat) (i mt : Nat) (hn : Option (List Nat)) :
    optLoop options i mt hn =
      match pyIndex options i with
      | none => some (mt, hn)
      | some tag =>
        match optStep options i tag mt hn with
        | none => none
        | some (mt2, hn2) =>
          if tag = 255 then some (mt2, hn2)
          else
            match pyIndex options (i + 1) with
            | none => none
            | some len => optLoop options (i + len + 2) mt2 hn2 := by
  show optLoopF (options.length + 1) options i mt hn = _
  cases hidx : pyIndex options i with
  | none => simp [optLoopF, hidx]
  | some tag =>
    cases hstep : optStep options i tag mt hn with
    | none => simp [optLoopF, hidx, hstep]
    | some p =>
      obtain ⟨mt2, hn2⟩ := p
      by_cases htag : tag = 255
      · simp [optLoopF, hidx, hstep, htag]
      · cases hidx2 : pyIndex options (i + 1) with
        | none => simp [optLoopF, hidx, hstep, htag, hidx2]
        | some len =>
          simp only [optLoopF, hidx, hstep, htag, hidx2, if_false]
          exact optLoopF_stable options.length (options.length + 1) options
            (i + len + 2) mt2 hn2 (by omega) (by omega)

/-! ## C2 -/

/-- C2: for every mac with a static reservation carrying ip R, every
allocation for that mac returns R — regardless of any existing dynamic
lease, the exclusion set, pool membership, or pool exhaustion
(`_get_available_ip` returns the reserved ip unconditionally first). -/
theorem C2_static_precedence (cfg : Config) (db : DB) (mac : Mac) (now : Nat)
    (ip : Nat) (h : db.get_static_reservation mac = some ip) :
    (getAvailableIp cfg db mac now).1 = some ip := by
  simp [getAvailableIp, h]

/-- Witness for C2: client macA holds a dynamic lease for 192.168.1.2 but has
a static reservation for 192.168.1.54 (= 3232235830), which wins. -/
theorem C2_witness :
    DB.get_static_reservation
        ⟨[(macA, ⟨3232235778, none, 0, 4000, 0⟩)], [(macA, 3232235830)]⟩ macA
      = some 3232235830 ∧
    (getAvailableIp cfg0
        ⟨[(macA, ⟨3232235778, none, 0, 4000, 0⟩)], [(macA, 3232235830)]⟩ macA 0).1
      = some 3232235830 :=
  ⟨by decide, C2_static_precedence cfg0 _ macA 0 3232235830 (by decide)⟩

/-! ## C10 -/

/-- C10: packet parsing is total at the public interface — any internal loop
failure is caught and yields the sentinel tuple `(0, b'', b'', None)`, and a
message type of 0 makes the dispatcher drop the datagram with no reply and
no change to the lease store. -/
theorem C10_parse_totality (cfg : Config) (db : DB) (data : List Nat) (now : Nat) :
    (optLoop (data.drop 240) 0 0 none = none →
      parse_dhcp_packet data = (0, [], [], none)) ∧
    ((parse_dhcp_packet data).1 = 0 →
      handle_client cfg db data now = (db, none)) := by
  constructor
  · intro h
    simp [parse_dhcp_packet, h]
  · intro h
    simp [handle_client, DHCPDISCOVER, DHCPREQUEST, h]

/-- Witness for C10: a truncated option region (lone tag 53) takes the
exception path, and a 100-byte buffer is dropped with the store untouched. -/
theorem C10_witness :
    parse_dhcp_packet (List.replicate 240 0 ++ [53]) = (0, [], [], none) ∧
    handle_client cfg0 ⟨[], []⟩ (List.replicate 100 0) 5 = (⟨[], []⟩, none) :=
  ⟨(C10_parse_totality cfg0 ⟨[], []⟩ (List.replicate 240 0 ++ [53]) 0).1 (by decide),
   (C10_parse_totality cfg0 ⟨[], []⟩ (List.replicate 100 0) 5).2 (by decide)⟩

/-! ## C7 -/

set_option maxHeartbeats 2000000 in
set_option maxRecDepth 10000 in
/-- C7: for every message type, xid, your_ip, client MAC and configured
option set, the serializer emits op=2, htype=1, hlen=6, hops=0, the given
xid at bytes 4..8, yiaddr=your_ip at 16..20, siaddr=server_ip at 20..24,
chaddr beginning with the 6-byte MAC zero-padded to 16 bytes, zeroed sname
and file, the magic cookie at 236..240, then options in the order
53, 54, 1, 3, 6, 42, 51, then 255, each option with a correct length byte
and option 51 as a big-endian 32-bit integer. -/
theorem C7_serialize_layout (cfg : Config) (message_type : Nat)
    (m0 m1 m2 m3 m4 m5 x0 x1 x2 x3 your_ip : Nat) :
    let p := create_dhcp_packet cfg message_type [m0, m1, m2, m3, m4, m5]
      [x0, x1, x2, x3] your_ip
    pySlice p 0 4 = [2, 1, 6, 0] ∧
    pySlice p 4 8 = [x0, x1, x2, x3] ∧
    pySlice p 8 16 = List.replicate 8 0 ∧
    pySlice p 16 20 = u32be your_ip ∧
    pySlice p 20 24 = u32be cfg.server_ip ∧
    pySlice p 24 28 = List.replicate 4 0 ∧
    pySlice p 28 44 = [m0, m1, m2, m3, m4, m5] ++ List.replicate 10 0 ∧
    pySlice p 44 108 = List.replicate 64 0 ∧
    pySlice p 108 236 = List.replicate 128 0 ∧
    pySlice p 236 240 = u32be 0x63825363 ∧
    p.drop 240 = [53, 1, message_type] ++ ([54, 4] ++ u32be cfg.server_ip)
      ++ ([1, 4] ++ u32be cfg.subnet_mask) ++ ([3, 4] ++ u32be cfg.router)
      ++ ([6, 4] ++ u32be cfg.dns) ++ ([42, 4] ++ u32be cfg.ntp)
      ++ ([51, 4] ++ u32be cfg.lease_time) ++ [255] :=
  ⟨rfl, rfl, rfl, rfl, rfl, rfl, rfl, rfl, rfl, rfl, rfl⟩

/-! ## C3 -/

theorem hostsRange_pairwise (cfg : Config) :
    (hostsRange cfg).Pairwise (· < ·) := by
  unfold hostsRange
  exact List.Pairwise.map _ (fun a b h => by omega)
    (List.pairwise_lt_range cfg.poolSize)

theorem find?_first_le {p : Nat → Bool} :
    ∀ (l : List Nat), l.Pairwise (· < ·) → ∀ x, l.find? p = some x →
      ∀ y ∈ l, p y = true → x ≤ y := by
  intro l
  induction l with
  | nil => intro _ x h; simp [List.find?] at h
  | cons a t ih =>
    intro hp x hfind y hy hpy
    rcases List.pairwise_cons.mp hp with ⟨ha, ht⟩
    cases hpa : p a with
    | true =>
      rw [List.find?_cons_of_pos _ hpa] at hfind
      obtain rfl : a = x := by injection hfind
      rcases List.mem_cons.mp hy with rfl | hyt
      · exact le_rfl
      · exact le_of_lt (ha y hyt)
    | false =>
      rw [List.find?_cons_of_neg _ (by simp [hpa])] at hfind
      rcases List.mem_cons.mp hy with rfl | hyt
      · rw [hpa] at hpy; cases hpy
      · exact ih ht x hfind y hyt hpy

/-- Membership in the active-ip set the allocator computes after its
`cleanup_expired_leases` call, phrased over the original lease table. -/
theorem active_after_cleanup_mem (db : DB) (now j : Nat) :
    ((((db.cleanup_expired_leases now).get_all_leases now).map
        (fun p => p.2.ip_address)).contains j = true) ↔
    ∃ p ∈ db.leases, now < p.2.lease_end ∧ p.2.ip_address = j := by
  simp [DB.cleanup_expired_leases, DB.get_all_leases, List.filter_filter,
    List.contains, List.elem_iff, List.mem_map, List.mem_filter, and_assoc]

/-- C3: for every mac with no static reservation and no unexpired lease, the
allocator first deletes expired leases, then returns the numerically
smallest host address of the configured CIDR that is neither excluded nor
the ip of any active lease; when no such address exists it returns no ip
(the `PoolExhausted` outcome). -/
theorem C3_fresh_allocation (cfg : Config) (db : DB) (mac : Mac) (now : Nat)
    (hstatic : db.get_static_reservation mac = none)
    (hlease : db.get_lease mac now = none) :
    (getAvailableIp cfg db mac now).2 = db.cleanup_expired_leases now ∧
    (∀ ip, (getAvailableIp cfg db mac now).1 = some ip →
      ip ∈ hostsRange cfg ∧ ip ∉ cfg.excluded ∧
      (∀ p ∈ db.leases, now < p.2.lease_end → p.2.ip_address ≠ ip) ∧
      (∀ j ∈ hostsRange cfg, j ∉ cfg.excluded →
        (∀ p ∈ db.leases, now < p.2.lease_end → p.2.ip_address ≠ j) →
        ip ≤ j)) ∧
    ((getAvailableIp cfg db mac now).1 = none →
      ∀ j ∈ hostsRange cfg, j ∈ cfg.excluded ∨
        ∃ p ∈ db.leases, now < p.2.lease_end ∧ p.2.ip_address = j) := by
  simp only [getAvailableIp, hstatic, hlease]
  refine ⟨trivial, ?_, ?_⟩
  · intro ip hip
    have hmem := List.mem_of_find?_eq_some hip
    have hpred := List.find?_some hip
    rw [Bool.and_eq_true, Bool.not_eq_true', Bool.not_eq_true'] at hpred
    obtain ⟨hex, hact⟩ := hpred
    have hexcl : ip ∉ cfg.excluded := by
      intro hc
      rw [List.contains, List.elem_iff.mpr hc] at hex
      cases hex
    have hactive : ∀ p ∈ db.leases, now < p.2.lease_end → p.2.ip_address ≠ ip := by
      intro p hp hpe hpi
      have : ((((db.cleanup_expired_leases now).get_all_leases now).map
          (fun p => p.2.ip_address)).contains ip = true) :=
        (active_after_cleanup_mem db now ip).mpr ⟨p, hp, hpe, hpi⟩
      rw [this] at hact
      cases hact
    refine ⟨hmem, hexcl, hactive, ?_⟩
    intro j hj hjex hjact
    refine find?_first_le (hostsRange cfg) (hostsRange_pairwise cfg) ip hip j hj ?_
    rw [Bool.and_eq_true, Bool.not_eq_true', Bool.not_eq_true']
    constructor
    · cases hc : cfg.excluded.contains j with
      | false => rfl
      | true =>
        exact absurd (by rwa [List.contains, List.elem_iff] at hc) hjex
    · cases hc : (((db.cleanup_expired_leases now).get_all_leases now).map
          (fun p => p.2.ip_address)).contains j with
      | false => rfl
      | true =>
        obtain ⟨p, hp, hpe, hpi⟩ := (active_after_cleanup_mem db now j).mp hc
        exact absurd hpi (hjact p hp hpe)
  · intro hnone j hj
    have := List.find?_eq_none.mp hnone j hj
    rw [Bool.and_eq_true, Bool.not_eq_true', Bool.not_eq_true'] at this
    by_cases hje : j ∈ cfg.excluded
    · exact Or.inl hje
    · right
      rcases not_and_or.mp this with h1 | h2
      · exact absurd (by
          cases hc : cfg.excluded.contains j with
          | false => rfl
          | true => exact absurd (by rwa [List.contains, List.elem_iff] at hc) hje) h1
      · rcases Bool.eq_false_or_eq_true ((((db.cleanup_expired_leases now).get_all_leases
            now).map (fun p => p.2.ip_address)).contains j) with hc | hc
        · exact (active_after_cleanup_mem db now j).mp hc
        · exact absurd hc h2


/-- Witness for C3: at time 10 client macA is unknown, the expired lease is
swept, and the conclusions of the theorem hold at this instance. -/
theorem C3_witness :
    DB.get_static_reservation dbW macA = none ∧
    DB.get_lease dbW macA 10 = none ∧
    (getAvailableIp cfg0 dbW macA 10).2 = DB.cleanup_expired_leases dbW 10 :=
  ⟨by decide, by decide,
   (C3_fresh_allocation cfg0 dbW macA 10 (by decide) (by decide)).1⟩

/-! ## C8 -/

/-- The database `_get_available_ip` leaves behind: unchanged on the static
and renewal paths, swept of expired rows on the fresh-allocation path. -/
theorem getAvailableIp_snd (cfg : Config) (db : DB) (mac : Mac) (now : Nat) :
    (getAvailableIp cfg db mac now).2 = db ∨
    (getAvailableIp cfg db mac now).2 = db.cleanup_expired_leases now := by
  unfold getAvailableIp
  cases h1 : db.get_static_reservation mac with
  | some ip => exact Or.inl rfl
  | none =>
    cases h2 : db.get_lease mac now with
    | some l => exact Or.inl rfl
    | none => exact Or.inr rfl

/-- Counterexample to C8 as stated: a DISCOVER from the unknown client macB
at time 10 deletes macA's expired lease record, so the set of lease records
(including expired ones) is not identical before and after the handler. -/
theorem C8_counterexample :
    (handle_discover cfg0 dbC8 macB [1, 2, 3, 4] none 10).1.leases ≠
      dbC8.leases := by decide

/-- C8 amended: handling a DISCOVER never adds or modifies a lease record
and preserves every active record — the only store mutation is that the
embedded sweep may delete already-expired records — and the only datagram
ever sent is an OFFER built by `create_dhcp_packet`. -/
theorem C8_discover_store_effect (cfg : Config) (db : DB) (mac : Mac)
    (xid : List Nat) (hostname : Option (List Nat)) (now : Nat) :
    (∀ p ∈ (handle_discover cfg db mac xid hostname now).1.leases,
      p ∈ db.leases) ∧
    (∀ p ∈ db.leases, now < p.2.lease_end →
      p ∈ (handle_discover cfg db mac xid hostname now).1.leases) ∧
    (handle_discover cfg db mac xid hostname now).1.statics = db.statics ∧
    ((handle_discover cfg db mac xid hostname now).2 = none ∨
      ∃ ip, (handle_discover cfg db mac xid hostname now).2 =
        some (create_dhcp_packet cfg DHCPOFFER mac xid ip)) := by
  have hdb : (handle_discover cfg db mac xid hostname now).1 =
      (getAvailableIp cfg db mac now).2 := by
    unfold handle_discover
    cases h : getAvailableIp cfg db mac now with
    | mk o db2 => cases o <;> rfl
  have hsnd : (handle_discover cfg db mac xid hostname now).2 = none ∨
      ∃ ip, (handle_discover cfg db mac xid hostname now).2 =
        some (create_dhcp_packet cfg DHCPOFFER mac xid ip) := by
    unfold handle_discover
    cases h : getAvailableIp cfg db mac now with
    | mk o db2 =>
      cases o with
      | none => exact Or.inl rfl
      | some ip => exact Or.inr ⟨ip, rfl⟩
  rcases getAvailableIp_snd cfg db mac now with hcase | hcase
  · rw [hdb, hcase]
    exact ⟨fun p hp => hp, fun p hp _ => hp, rfl, hsnd⟩
  · rw [hdb, hcase]
    refine ⟨?_, ?_, rfl, hsnd⟩
    · intro p hp
      exact (List.mem_filter.mp hp).1
    · intro p hp hpe
      exact List.mem_filter.mpr ⟨hp, by simpa using hpe⟩

/-- Witness for C8 amended, at the counterexample instance: the active
record survives the DISCOVER and nothing but an OFFER is sent. -/
theorem C8_witness :
    ((macB, (⟨3232235778, none, 0, 3600, 0⟩ : Lease)) ∈
      (handle_discover cfg0 ⟨[(macB, ⟨3232235778, none, 0, 3600, 0⟩)], []⟩
        macB [1, 2, 3, 4] none 10).1.leases) :=
  (C8_discover_store_effect cfg0 ⟨[(macB, ⟨3232235778, none, 0, 3600, 0⟩)], []⟩
    macB [1, 2, 3, 4] none 10).2.1 (macB, ⟨3232235778, none, 0, 3600, 0⟩)
    (by decide) (by decide)

/-! ## C9 -/

theorem getAvailableIp_snd_statics (cfg : Config) (db : DB) (mac : Mac)
    (now : Nat) : ((getAvailableIp cfg db mac now).2).statics = db.statics := by
  rcases getAvailableIp_snd cfg db mac now with h | h <;> rw [h] <;> rfl

theorem get_static_congr {db1 db2 : DB} (h : db1.statics = db2.statics)
    (mac : Mac) :
    db1.get_static_reservation mac = db2.get_static_reservation mac := by
  unfold DB.get_static_reservation
  rw [h]

theorem get_lease_add_lease_self (db : DB) (mac : Mac) (ip lt : Nat)
    (hn : Option (List Nat)) (t1 t2 : Nat) (h : t2 < t1 + lt) :
    (db.add_lease mac ip lt hn t1).get_lease mac t2 =
      some ⟨ip, hn, t1, t1 + lt, t1⟩ := by
  unfold DB.add_lease DB.get_lease
  rw [List.find?_cons_of_pos _ (by simp)]
  simp [h]

theorem leaseEndOf_add_lease (db : DB) (mac : Mac) (ip lt : Nat)
    (hn : Option (List Nat)) (now : Nat) :
    (db.add_lease mac ip lt hn now).leaseEndOf mac = some (now + lt) := by
  unfold DB.add_lease DB.leaseEndOf
  rw [List.find?_cons_of_pos _ (by simp)]
  rfl

/-- C9: two consecutive REQUESTs from the same mac, the second strictly later
but within the lease period of the first, are ACKed with the same ip, and
the stored lease_end after the second REQUEST is strictly greater than after
the first (each REQUEST resets lease_start and last_seen to now and
lease_end to now plus the configured lease seconds). -/
theorem C9_renewal_stability (cfg : Config) (db : DB) (mac : Mac)
    (xid1 xid2 : List Nat) (hn1 hn2 : Option (List Nat)) (t1 t2 ip1 : Nat)
    (halloc : (getAvailableIp cfg db mac t1).1 = some ip1)
    (h12 : t1 < t2) (h2in : t2 < t1 + cfg.lease_time) :
    (handle_request cfg db mac xid1 hn1 t1).2 =
      some (create_dhcp_packet cfg DHCPACK mac xid1 ip1) ∧
    ((handle_request cfg db mac xid1 hn1 t1).1).leaseEndOf mac =
      some (t1 + cfg.lease_time) ∧
    (handle_request cfg ((handle_request cfg db mac xid1 hn1 t1).1) mac
        xid2 hn2 t2).2 =
      some (create_dhcp_packet cfg DHCPACK mac xid2 ip1) ∧
    (handle_request cfg ((handle_request cfg db mac xid1 hn1 t1).1) mac
        xid2 hn2 t2).1.leaseEndOf mac = some (t2 + cfg.lease_time) ∧
    t1 + cfg.lease_time < t2 + cfg.lease_time := by
  rcases hga : getAvailableIp cfg db mac t1 with ⟨o, dbx⟩
  rw [hga] at halloc
  obtain rfl : o = some ip1 := halloc
  have hstx : dbx.statics = db.statics := by
    have h := getAvailableIp_snd_statics cfg db mac t1
    rw [hga] at h
    exact h
  have hreq1 : handle_request cfg db mac xid1 hn1 t1 =
      (dbx.add_lease mac ip1 cfg.lease_time hn1 t1,
       some (create_dhcp_packet cfg DHCPACK mac xid1 ip1)) := by
    unfold handle_request
    rw [hga]
  have hga2 : getAvailableIp cfg (dbx.add_lease mac ip1 cfg.lease_time hn1 t1)
      mac t2 = (some ip1, dbx.add_lease mac ip1 cfg.lease_time hn1 t1) := by
    have hstx2 : (dbx.add_lease mac ip1 cfg.lease_time hn1 t1).statics
        = db.statics := hstx
    cases hstat : db.get_static_reservation mac with
    | some r =>
      have hr : r = ip1 ∧ db = dbx := by
        simp only [getAvailableIp, hstat] at hga
        rw [Prod.mk.injEq] at hga
        obtain ⟨h1, h2⟩ := hga
        exact ⟨by injection h1, h2⟩
      unfold getAvailableIp
      rw [get_static_congr hstx2 mac, hstat, hr.1]
    | none =>
      unfold getAvailableIp
      rw [get_static_congr hstx2 mac, hstat,
        get_lease_add_lease_self dbx mac ip1 cfg.lease_time hn1 t1 t2 h2in]
  have hreq2 : handle_request cfg (dbx.add_lease mac ip1 cfg.lease_time hn1 t1)
      mac xid2 hn2 t2 =
      ((dbx.add_lease mac ip1 cfg.lease_time hn1 t1).add_lease mac ip1
         cfg.lease_time hn2 t2,
       some (create_dhcp_packet cfg DHCPACK mac xid2 ip1)) := by
    unfold handle_request
    rw [hga2]
  rw [hreq1]
  refine ⟨rfl, leaseEndOf_add_lease dbx mac ip1 cfg.lease_time hn1 t1, ?_, ?_, by omega⟩
  · rw [hreq2]
  · rw [hreq2]
    exact leaseEndOf_add_lease _ mac ip1 cfg.lease_time hn2 t2

/-- Witness for C9: from an empty store, macA REQUESTs at t=0 and again at
t=100; both ACKs carry 192.168.1.2 and the stored lease_end advances from
3600 to 3700. -/
theorem C9_witness :
    ((handle_request cfg0 ⟨[], []⟩ macA [1] none 0).1).leaseEndOf macA =
      some 3600 ∧
    (handle_request cfg0 ((handle_request cfg0 ⟨[], []⟩ macA [1] none 0).1)
        macA [2] none 100).1.leaseEndOf macA = some 3700 :=
  ⟨(C9_renewal_stability cfg0 ⟨[], []⟩ macA [1] [2] none none 0 100 3232235778
      (by decide) (by decide) (by decide)).2.1,
   (C9_renewal_stability cfg0 ⟨[], []⟩ macA [1] [2] none none 0 100 3232235778
      (by decide) (by decide) (by decide)).2.2.2.1⟩

/-! ## Shift lemmas: the option walk only looks at the list from its index on -/

theorem pyIndex_append (xs ys : List Nat) (i : Nat) :
    pyIndex (xs ++ ys) (xs.length + i) = pyIndex ys i := by
  simp only [pyIndex]
  rw [List.get?_append_right (by omega)]
  congr 1
  omega

theorem pySlice_append_shift (xs ys : List Nat) (a b : Nat) :
    pySlice (xs ++ ys) (xs.length + a) (xs.length + b) = pySlice ys a b := by
  simp only [pySlice]
  rw [List.drop_append]
  congr 1
  omega

theorem optStep_shift (xs ys : List Nat) (i tag mt : Nat)
    (hn : Option (List Nat)) :
    optStep (xs ++ ys) (xs.length + i) tag mt hn = optStep ys i tag mt hn := by
  have h2 : xs.length + i + 2 = xs.length + (i + 2) := by omega
  have h1 : xs.length + i + 1 = xs.length + (i + 1) := by omega
  have hsl : ∀ len : Nat, pySlice (xs ++ ys) (xs.length + (i + 2))
      (xs.length + (i + 2) + len) = pySlice ys (i + 2) (i + 2 + len) := by
    intro len
    rw [show xs.length + (i + 2) + len = xs.length + (i + 2 + len) from by omega]
    exact pySlice_append_shift xs ys (i + 2) (i + 2 + len)
  unfold optStep
  rw [h2, h1, pyIndex_append, pyIndex_append]
  simp only [hsl]

theorem optLoopF_shift (fuel : Nat) : ∀ (xs ys : List Nat) (i mt : Nat)
    (hn : Option (List Nat)),
    optLoopF fuel (xs ++ ys) (xs.length + i) mt hn = optLoopF fuel ys i mt hn := by
  induction fuel with
  | zero => intro xs ys i mt hn; rfl
  | succ f ih =>
    intro xs ys i mt hn
    have h1 : xs.length + i + 1 = xs.length + (i + 1) := by omega
    cases hidx : pyIndex ys i with
    | none => simp [optLoopF, pyIndex_append, hidx]
    | some tag =>
      cases hstep : optStep ys i tag mt hn with
      | none => simp [optLoopF, pyIndex_append, optStep_shift, hidx, hstep]
      | some p =>
        obtain ⟨mt2, hn2⟩ := p
        by_cases htag : tag = 255
        · simp [optLoopF, pyIndex_append, optStep_shift, hidx, hstep, htag]
        · cases hidx2 : pyIndex ys (i + 1) with
          | none =>
            simp [optLoopF, pyIndex_append, optStep_shift, hidx, hstep, htag,
              h1, hidx2]
          | some len =>
            have h2 : xs.length + i + len + 2 = xs.length + (i + len + 2) := by
              omega
            simp only [optLoopF, h1, h2, pyIndex_append, optStep_shift, hidx,
              hstep, htag, if_false, hidx2]
            exact ih xs ys (i + len + 2) mt2 hn2

theorem optLoop_shift (xs ys : List Nat) (i mt : Nat) (hn : Option (List Nat)) :
    optLoop (xs ++ ys) (xs.length + i) mt hn = optLoop ys i mt hn := by
  unfold optLoop
  rw [optLoopF_stable ((xs ++ ys).length + 1) (ys.length + 1) (xs ++ ys)
    (xs.length + i) mt hn (by simp; omega) (by simp; omega)]
  exact optLoopF_shift (ys.length + 1) xs ys i mt hn

/-! ## C4 -/

/-- Counterexample to C4: parse never checks the magic cookie.  This
244-byte buffer carries 0,0,0,0 at offsets 236..240 instead of the cookie,
yet parses successfully to message type 3 — there is no distinguishable
error result. -/
theorem C4_counterexample :
    pySlice (List.replicate 240 0 ++ [53, 1, 3, 255]) 236 240 ≠
      u32be 0x63825363 ∧
    parse_dhcp_packet (List.replicate 240 0 ++ [53, 1, 3, 255]) =
      (3, List.replicate 6 0, List.replicate 4 0, none) := by decide

/-- C4 amended: parse never fails with a distinguishable error.  The magic
cookie region (bytes 236..240) is never inspected — two buffers agreeing
outside it parse identically; an option walk that indexes past the end of
the buffer is caught and yields the sentinel `(0, b'', b'', None)`; and a
buffer of at most 240 bytes has an empty option region, so it yields
message type 0 with the (possibly short) chaddr and xid slices. -/
theorem C4_no_malformed_detection (d1 d2 : List Nat)
    (h236 : d1.take 236 = d2.take 236) (h240 : d1.drop 240 = d2.drop 240) :
    parse_dhcp_packet d1 = parse_dhcp_packet d2 ∧
    (optLoop (d1.drop 240) 0 0 none = none →
      parse_dhcp_packet d1 = (0, [], [], none)) ∧
    (d1.length ≤ 240 →
      parse_dhcp_packet d1 = (0, pySlice d1 28 34, pySlice d1 4 8, none)) := by
  have emac : ∀ d : List Nat, pySlice d 28 34 = ((d.take 236).drop 28).take 6 := by
    intro d
    simp [pySlice, List.drop_take, List.take_take]
  have exid : ∀ d : List Nat, pySlice d 4 8 = ((d.take 236).drop 4).take 4 := by
    intro d
    simp [pySlice, List.drop_take, List.take_take]
  refine ⟨?_, ?_, ?_⟩
  · simp only [parse_dhcp_packet]
    rw [h240, emac d1, emac d2, h236, exid d1, exid d2, h236]
  · intro h
    simp [parse_dhcp_packet, h]
  · intro hlen
    have hopt : d1.drop 240 = [] := List.drop_eq_nil_of_le (by omega)
    simp only [parse_dhcp_packet, hopt]
    rfl

set_option maxRecDepth 4000 in
/-- Witness for C4 amended: replacing the zeroed cookie region of the
counterexample buffer by the true cookie does not change the parse, and a
100-byte buffer parses to the sentinel message type 0. -/
theorem C4_witness :
    parse_dhcp_packet (List.replicate 240 0 ++ [53, 1, 3, 255]) =
      parse_dhcp_packet
        (List.replicate 236 0 ++ u32be 0x63825363 ++ [53, 1, 3, 255]) ∧
    parse_dhcp_packet (List.replicate 100 7) =
      (0, pySlice (List.replicate 100 7) 28 34,
       pySlice (List.replicate 100 7) 4 8, none) :=
  ⟨(C4_no_malformed_detection (List.replicate 240 0 ++ [53, 1, 3, 255])
      (List.replicate 236 0 ++ u32be 0x63825363 ++ [53, 1, 3, 255])
      (by decide) (by decide)).1,
   (C4_no_malformed_detection (List.replicate 100 7) (List.replicate 100 7)
      rfl rfl).2.2 (by decide)⟩

/-! ## C5 -/

/-- Counterexample to C5: tag-0 padding is not skipped as a single
length-less byte.  Prepending one pad byte before the tag-53 option makes
the parser read the 53 as the padding's length and jump past the entire
region, so the padded packet loses its message type instead of parsing to
the same fields. -/
theorem C5_counterexample :
    parse_dhcp_packet (List.replicate 240 0 ++ [0, 53, 1, 3, 255]) =
      (0, List.replicate 6 0, List.replicate 4 0, none) ∧
    parse_dhcp_packet (List.replicate 240 0 ++ [53, 1, 3, 255]) =
      (3, List.replicate 6 0, List.replicate 4 0, none) := by decide

/-- C5 amended: the option walk stops at tag 255, and it treats every other
tag — including tag 0 — uniformly as tag/length/value: it reads the next
byte as a length L and advances by L + 2 (so tag-0 padding is not
transparent). -/
theorem C5_option_walk (options : List Nat) (i mt : Nat)
    (hn : Option (List Nat)) (tag : Nat)
    (htag : pyIndex options i = some tag) :
    (tag = 255 → optLoop options i mt hn = some (mt, hn)) ∧
    (tag ≠ 53 → tag ≠ 12 → tag ≠ 255 →
      optLoop options i mt hn =
        match pyIndex options (i + 1) with
        | none => none
        | some len => optLoop options (i + len + 2) mt hn) := by
  constructor
  · intro h255
    subst h255
    rw [optLoop_step, htag]
    simp [optStep]
  · intro h53 h12 h255
    rw [optLoop_step, htag]
    simp only [optStep, h53, h12, h255, if_false]

/-- Witness for C5 amended: on the padded counterexample options the walk at
the pad byte reads the neighbouring 53 as a length and jumps to index 55
(an empty suffix), and at a 255 byte it stops. -/
theorem C5_witness :
    optLoop [0, 53, 1, 3, 255] 0 7 none = optLoop [0, 53, 1, 3, 255] 55 7 none ∧
    optLoop [255] 0 9 none = some (9, none) :=
  ⟨(C5_option_walk [0, 53, 1, 3, 255] 0 7 none 0 (by decide)).2
      (by decide) (by decide) (by decide),
   (C5_option_walk [255] 0 9 none 255 (by decide)).1 rfl⟩

theorem pySlice_append_left (xs ys : List Nat) (a b : Nat) (h : b ≤ xs.length) :
    pySlice (xs ++ ys) a b = pySlice xs a b := by
  simp only [pySlice, List.drop_append_eq_append_drop,
    List.take_append_eq_append_take, List.length_drop]
  rcases le_or_lt a b with hab | hab
  · rw [show a - xs.length = 0 from by omega, List.drop_zero,
      show b - a - (xs.length - a) = 0 from by omega]
    simp
  · rw [show b - a = 0 from by omega]
    simp

/-! ## C6 -/

/-- Counterexample to C6: requested_ip (tag 50) and server_identifier
(tag 54) are not returned to the caller — two valid REQUEST packets that
differ only in those option values give identical parse results, so neither
field is recoverable from what parse returns. -/
theorem C6_counterexample :
    parse_dhcp_packet (List.replicate 240 0 ++
        [53, 1, 3, 50, 4, 192, 168, 1, 5, 54, 4, 192, 168, 1, 1, 255]) =
      parse_dhcp_packet (List.replicate 240 0 ++
        [53, 1, 3, 50, 4, 192, 168, 1, 99, 54, 4, 10, 0, 0, 1, 255]) ∧
    (List.replicate 240 0 ++
        [53, 1, 3, 50, 4, 192, 168, 1, 5, 54, 4, 192, 168, 1, 1, 255]) ≠
      (List.replicate 240 0 ++
        [53, 1, 3, 50, 4, 192, 168, 1, 99, 54, 4, 10, 0, 0, 1, 255]) := by
  decide

/-- The walk skips any run of well-formed options whose tags are none of
53, 12, 255 without changing its state. -/
theorem optLoop_skip_opts (rest : List Nat) :
    ∀ (opts : List (Nat × List Nat)) (mt : Nat) (hn : Option (List Nat)),
    (∀ p ∈ opts, p.1 ≠ 53 ∧ p.1 ≠ 12 ∧ p.1 ≠ 255) →
    optLoop (optionsBytes opts ++ rest) 0 mt hn = optLoop rest 0 mt hn := by
  intro opts
  induction opts with
  | nil => intro mt hn _; simp [optionsBytes]
  | cons q opts2 ih =>
    intro mt hn h
    obtain ⟨tag, val⟩ := q
    obtain ⟨h53, h12, h255⟩ := h (tag, val) (List.mem_cons_self _ _)
    have hrest : ∀ p ∈ opts2, p.1 ≠ 53 ∧ p.1 ≠ 12 ∧ p.1 ≠ 255 :=
      fun p hp => h p (List.mem_cons_of_mem _ hp)
    have hshape : optionsBytes ((tag, val) :: opts2) ++ rest
        = tag :: val.length :: (val ++ (optionsBytes opts2 ++ rest)) := by
      simp [optionsBytes]
    have hidx : pyIndex (tag :: val.length :: (val ++ (optionsBytes opts2 ++ rest))) 0
        = some tag := rfl
    have hlen : pyIndex (tag :: val.length :: (val ++ (optionsBytes opts2 ++ rest))) 1
        = some val.length := rfl
    have hstep : optStep (tag :: val.length :: (val ++ (optionsBytes opts2 ++ rest)))
        0 tag mt hn = some (mt, hn) := by
      simp [optStep, h53, h12]
    rw [hshape, optLoop_step]
    simp only [hidx, hstep, h255, if_false, Nat.zero_add, hlen]
    have hix : val.length + 2 = (tag :: val.length :: val).length + 0 := by
      simp [List.length_cons]
    have hL : tag :: val.length :: (val ++ (optionsBytes opts2 ++ rest))
        = (tag :: val.length :: val) ++ (optionsBytes opts2 ++ rest) := by
      simp
    rw [hix, hL, optLoop_shift]
    exact ih mt hn hrest

/-- C6 amended: parse returns exactly four fields — message_type (tag 53),
client_mac (bytes 28..34), xid (bytes 4..8) and hostname (tag 12).  The
result is independent of every other well-formed option, so requested_ip
(tag 50) and server_identifier (tag 54) are in particular not extracted. -/
theorem C6_returned_fields (pre : List Nat) (mtv : Nat) (hnv : List Nat)
    (opts : List (Nat × List Nat)) (hpre : pre.length = 240)
    (hopts : ∀ p ∈ opts, p.1 ≠ 53 ∧ p.1 ≠ 12 ∧ p.1 ≠ 255) :
    parse_dhcp_packet (pre ++ ([53, 1, mtv] ++
        (optionsBytes opts ++ ((12 :: hnv.length :: hnv) ++ [255])))) =
      (mtv, pySlice pre 28 34, pySlice pre 4 8, some hnv) := by
  have e1 : optLoop ([53, 1, mtv] ++
      (optionsBytes opts ++ ((12 :: hnv.length :: hnv) ++ [255]))) 0 0 none =
      optLoop ([53, 1, mtv] ++
        (optionsBytes opts ++ ((12 :: hnv.length :: hnv) ++ [255]))) 3 mtv none := by
    rw [optLoop_step]
    rfl
  have e2 : optLoop ([53, 1, mtv] ++
      (optionsBytes opts ++ ((12 :: hnv.length :: hnv) ++ [255]))) 3 mtv none =
      optLoop (optionsBytes opts ++ ((12 :: hnv.length :: hnv) ++ [255]))
        0 mtv none :=
    optLoop_shift [53, 1, mtv] _ 0 mtv none
  have e3 : optLoop (optionsBytes opts ++ ((12 :: hnv.length :: hnv) ++ [255]))
      0 mtv none = optLoop ((12 :: hnv.length :: hnv) ++ [255]) 0 mtv none :=
    optLoop_skip_opts _ opts mtv none hopts
  have hsl : pySlice ((12 :: hnv.length :: hnv) ++ [255]) 2 (2 + hnv.length)
      = hnv := by
    simp only [pySlice]
    rw [show 2 + hnv.length - 2 = hnv.length from by omega]
    show (hnv ++ [255]).take hnv.length = hnv
    exact List.take_left hnv [255]
  have e4 : optLoop ((12 :: hnv.length :: hnv) ++ [255]) 0 mtv none =
      optLoop ((12 :: hnv.length :: hnv) ++ [255]) (0 + hnv.length + 2) mtv
        (some hnv) := by
    have e4a : optLoop ((12 :: hnv.length :: hnv) ++ [255]) 0 mtv none =
        optLoop ((12 :: hnv.length :: hnv) ++ [255]) (0 + hnv.length + 2) mtv
          (some (pySlice ((12 :: hnv.length :: hnv) ++ [255]) 2
            (2 + hnv.length))) := by
      rw [optLoop_step]
      rfl
    rw [e4a, hsl]
  have e5 : optLoop ((12 :: hnv.length :: hnv) ++ [255]) (0 + hnv.length + 2)
      mtv (some hnv) = optLoop [255] 0 mtv (some hnv) := by
    rw [show 0 + hnv.length + 2 = (12 :: hnv.length :: hnv).length + 0 from by
      simp [List.length_cons]]
    exact optLoop_shift (12 :: hnv.length :: hnv) [255] 0 mtv (some hnv)
  have e6 : optLoop [255] 0 mtv (some hnv) = some (mtv, some hnv) := rfl
  have hall : optLoop ([53, 1, mtv] ++
      (optionsBytes opts ++ ((12 :: hnv.length :: hnv) ++ [255]))) 0 0 none =
      some (mtv, some hnv) :=
    ((((e1.trans e2).trans e3).trans e4).trans e5).trans e6
  have hopt_region : (pre ++ ([53, 1, mtv] ++
      (optionsBytes opts ++ ((12 :: hnv.length :: hnv) ++ [255])))).drop 240 =
      [53, 1, mtv] ++ (optionsBytes opts ++ ((12 :: hnv.length :: hnv) ++ [255])) := by
    rw [← hpre, List.drop_left]
  simp only [parse_dhcp_packet, hopt_region, hall]
  rw [pySlice_append_left _ _ 28 34 (by omega),
    pySlice_append_left _ _ 4 8 (by omega)]

/-- Witness for C6 amended: a REQUEST packet whose extra options are a
requested ip (tag 50) and a server identifier (tag 54) parses to exactly
message type 3, the zeroed chaddr and xid slices, and hostname "hi". -/
theorem C6_witness :
    parse_dhcp_packet (List.replicate 240 0 ++ ([53, 1, 3] ++
        (optionsBytes [(50, [192, 168, 1, 5]), (54, [192, 168, 1, 1])] ++
          ((12 :: [104, 105].length :: [104, 105]) ++ [255])))) =
      (3, pySlice (List.replicate 240 0) 28 34,
       pySlice (List.replicate 240 0) 4 8, some [104, 105]) :=
  C6_returned_fields (List.replicate 240 0) 3 [104, 105]
    [(50, [192, 168, 1, 5]), (54, [192, 168, 1, 1])] (by decide) (by decide)

/-! ## C1 -/

/-- Counterexample to C1 as stated: starting from an empty lease table with
a static reservation (macA → 192.168.1.2), macB obtains 192.168.1.2
dynamically at t=0 and macA is then served the same ip from its reservation
at t=1 — two active leases of distinct macs now share one ip. -/
theorem C1_counterexample :
    (((runEvents cfg0 ⟨[], [(macA, 3232235778)]⟩
        [.request macB none 0, .request macA none 1]).get_all_leases 1).map
      (fun p => p.1)).Nodup ∧
    ¬ (((runEvents cfg0 ⟨[], [(macA, 3232235778)]⟩
        [.request macB none 0, .request macA none 1]).get_all_leases 1).map
      (fun p => p.2.ip_address)).Nodup := by decide

theorem nodup_map_filter {α β : Type} (f : α → β) (p : α → Bool) (l : List α)
    (h : (l.map f).Nodup) : ((l.filter p).map f).Nodup :=
  List.Nodup.sublist (List.Sublist.map f (List.filter_sublist l)) h

theorem handle_discover_fst (cfg : Config) (db : DB) (mac : Mac)
    (xid : List Nat) (hn : Option (List Nat)) (now : Nat) :
    (handle_discover cfg db mac xid hn now).1 =
      (getAvailableIp cfg db mac now).2 := by
  unfold handle_discover
  cases h : getAvailableIp cfg db mac now with
  | mk o db2 => cases o <;> rfl

theorem handle_request_fst (cfg : Config) (db : DB) (mac : Mac)
    (xid : List Nat) (hn : Option (List Nat)) (now : Nat) :
    (handle_request cfg db mac xid hn now).1 =
      match getAvailableIp cfg db mac now with
      | (none, db2) => db2
      | (some ip, db2) => db2.add_lease mac ip cfg.lease_time hn now := by
  unfold handle_request
  cases h : getAvailableIp cfg db mac now with
  | mk o db2 => cases o <;> rfl

theorem applyEvent_statics (cfg : Config) (db : DB) (e : Event) :
    (applyEvent cfg db e).statics = db.statics := by
  cases e with
  | discover mac now =>
    show (handle_discover cfg db mac [] none now).1.statics = db.statics
    rw [handle_discover_fst]
    exact getAvailableIp_snd_statics cfg db mac now
  | request mac hn now =>
    show (handle_request cfg db mac [] hn now).1.statics = db.statics
    rw [handle_request_fst]
    have hs : ((getAvailableIp cfg db mac now).2).statics = db.statics :=
      getAvailableIp_snd_statics cfg db mac now
    cases h : getAvailableIp cfg db mac now with
    | mk o db2 =>
      rw [h] at hs
      cases o with
      | none => exact hs
      | some ip => exact hs
  | sweep now => rfl

theorem add_lease_keys_nodup (db : DB) (mac : Mac) (ip lt : Nat)
    (hn : Option (List Nat)) (now : Nat)
    (hkeys : (db.leases.map (fun p => p.1)).Nodup) :
    ((db.add_lease mac ip lt hn now).leases.map (fun p => p.1)).Nodup := by
  simp only [DB.add_lease, List.map_cons, List.nodup_cons]
  constructor
  · intro hmem
    obtain ⟨q, hq, hq1⟩ := List.mem_map.mp hmem
    have hq2 := (List.mem_filter.mp hq).2
    rw [hq1] at hq2
    simp at hq2
  · exact nodup_map_filter _ _ _ hkeys

theorem add_lease_ips_nodup (db : DB) (mac : Mac) (ip lt : Nat)
    (hn : Option (List Nat)) (now : Nat)
    (hips : (db.leases.map (fun p => p.2.ip_address)).Nodup)
    (hfresh : ∀ q ∈ db.leases, q.1 ≠ mac → q.2.ip_address ≠ ip) :
    ((db.add_lease mac ip lt hn now).leases.map
      (fun p => p.2.ip_address)).Nodup := by
  simp only [DB.add_lease, List.map_cons, List.nodup_cons]
  constructor
  · intro hmem
    obtain ⟨q, hq, hq2⟩ := List.mem_map.mp hmem
    obtain ⟨hqdb, hqm⟩ := List.mem_filter.mp hq
    have hq1 : q.1 ≠ mac := by simpa using hqm
    exact hfresh q hqdb hq1 hq2
  · exact nodup_map_filter _ _ _ hips

theorem cleanup_get_all (db : DB) (now : Nat) :
    (db.cleanup_expired_leases now).get_all_leases now =
      (db.cleanup_expired_leases now).leases := by
  simp [DB.cleanup_expired_leases, DB.get_all_leases, List.filter_filter]

theorem inv_preserved (cfg : Config) (db : DB) (e : Event)
    (hstat : db.statics = [])
    (hkeys : (db.leases.map (fun p => p.1)).Nodup)
    (hips : (db.leases.map (fun p => p.2.ip_address)).Nodup) :
    ((applyEvent cfg db e).leases.map (fun p => p.1)).Nodup ∧
    ((applyEvent cfg db e).leases.map (fun p => p.2.ip_address)).Nodup := by
  cases e with
  | sweep now =>
    exact ⟨nodup_map_filter _ _ _ hkeys, nodup_map_filter _ _ _ hips⟩
  | discover mac now =>
    show ((handle_discover cfg db mac [] none now).1.leases.map _).Nodup ∧
      ((handle_discover cfg db mac [] none now).1.leases.map _).Nodup
    rw [handle_discover_fst]
    rcases getAvailableIp_snd cfg db mac now with h | h <;> rw [h]
    · exact ⟨hkeys, hips⟩
    · exact ⟨nodup_map_filter _ _ _ hkeys, nodup_map_filter _ _ _ hips⟩
  | request mac hn now =>
    show ((handle_request cfg db mac [] hn now).1.leases.map _).Nodup ∧
      ((handle_request cfg db mac [] hn now).1.leases.map _).Nodup
    rw [handle_request_fst]
    have hstatic : db.get_static_reservation mac = none := by
      unfold DB.get_static_reservation
      rw [hstat]
      rfl
    cases hlease : db.get_lease mac now with
    | some l =>
      have hga : getAvailableIp cfg db mac now = (some l.ip_address, db) := by
        simp [getAvailableIp, hstatic, hlease]
      rw [hga]
      obtain ⟨r, hf, hrl⟩ : ∃ r, db.leases.find? (fun p => p.1 == mac) = some r ∧
          r.2 = l := by
        unfold DB.get_lease at hlease
        cases hf : db.leases.find? (fun p => p.1 == mac) with
        | none => rw [hf] at hlease; cases hlease
        | some r =>
          rw [hf] at hlease
          change (if now < r.2.lease_end then some r.2 else none) = some l
            at hlease
          by_cases hlt : now < r.2.lease_end
          · rw [if_pos hlt] at hlease
            exact ⟨r, rfl, by injection hlease⟩
          · rw [if_neg hlt] at hlease
            cases hlease
      have hr1 : r.1 = mac := by
        have := List.find?_some hf
        simpa using this
      have hrdb : r ∈ db.leases := List.mem_of_find?_eq_some hf
      refine ⟨add_lease_keys_nodup db mac _ _ hn now hkeys,
        add_lease_ips_nodup db mac _ _ hn now hips ?_⟩
      intro q hq hq1 hqip
      have hqr : q = r := by
        refine List.inj_on_of_nodup_map hips hq hrdb ?_
        rw [hqip, hrl]
      rw [hqr] at hq1
      exact hq1 hr1
    | none =>
      have hga : getAvailableIp cfg db mac now =
          ((hostsRange cfg).find? (fun ip =>
            !(cfg.excluded.contains ip) &&
            !((((db.cleanup_expired_leases now).get_all_leases now).map
              (fun p => p.2.ip_address)).contains ip)),
           db.cleanup_expired_leases now) := by
        simp [getAvailableIp, hstatic, hlease]
      rw [hga]
      have hck : ((db.cleanup_expired_leases now).leases.map
          (fun p => p.1)).Nodup := nodup_map_filter _ _ _ hkeys
      have hci : ((db.cleanup_expired_leases now).leases.map
          (fun p => p.2.ip_address)).Nodup := nodup_map_filter _ _ _ hips
      cases hfind : (hostsRange cfg).find? (fun ip =>
          !(cfg.excluded.contains ip) &&
          !((((db.cleanup_expired_leases now).get_all_leases now).map
            (fun p => p.2.ip_address)).contains ip)) with
      | none => exact ⟨hck, hci⟩
      | some ip =>
        refine ⟨add_lease_keys_nodup _ mac _ _ hn now hck,
          add_lease_ips_nodup _ mac _ _ hn now hci ?_⟩
        intro q hq _ hqip
        have hp := List.find?_some hfind
        rw [Bool.and_eq_true, Bool.not_eq_true', Bool.not_eq_true'] at hp
        have hip : ip ∉ ((db.cleanup_expired_leases now).leases.map
            (fun p => p.2.ip_address)) := by
          intro hc
          rw [cleanup_get_all] at hp
          have : ((db.cleanup_expired_leases now).leases.map
              (fun p => p.2.ip_address)).contains ip = true := by
            rw [List.contains, List.elem_iff]
            exact hc
          rw [this] at hp
          cases hp.2
        exact hip (List.mem_map.mpr ⟨q, hq, hqip⟩)

theorem inv_run (cfg : Config) (evs : List Event) : ∀ db : DB,
    db.statics = [] →
    (db.leases.map (fun p => p.1)).Nodup →
    (db.leases.map (fun p => p.2.ip_address)).Nodup →
    ((runEvents cfg db evs).leases.map (fun p => p.1)).Nodup ∧
    ((runEvents cfg db evs).leases.map (fun p => p.2.ip_address)).Nodup := by
  induction evs with
  | nil => intro db _ h2 h3; exact ⟨h2, h3⟩
  | cons e evs2 ih =>
    intro db h1 h2 h3
    have hstat2 : (applyEvent cfg db e).statics = [] := by
      rw [applyEvent_statics]
      exact h1
    obtain ⟨hk, hi⟩ := inv_preserved cfg db e h1 h2 h3
    exact ih (applyEvent cfg db e) hstat2 hk hi

/-- C1 amended: in the absence of static reservations the invariant holds —
starting from an empty store, after any sequence of DISCOVER, REQUEST and
sweep operations the stored leases carry pairwise-distinct ips, so at every
instant t the leases active at t (distinct macs, since mac is the key) have
pairwise-distinct ips.  (The counterexample shows an allocation served from
a static reservation can duplicate an ip.) -/
theorem C1_uniqueness_without_statics (cfg : Config) (evs : List Event) :
    ((runEvents cfg ⟨[], []⟩ evs).leases.map (fun p => p.2.ip_address)).Nodup ∧
    ∀ t : Nat, (((runEvents cfg ⟨[], []⟩ evs).get_all_leases t).map
      (fun p => p.2.ip_address)).Nodup := by
  obtain ⟨hk, hi⟩ := inv_run cfg evs ⟨[], []⟩ rfl (by simp) (by simp)
  exact ⟨hi, fun t => nodup_map_filter _ _ _ hi⟩
